import Mathlib

/-!
Verification of the ocode tool-execution runtime.

Shallow embedding of the Python sources under `ocode_python/tools/`
(`base.py`, `file_tools.py`, `bash_tool.py`) together with the
spec-described components whose code is not part of the snapshot
(command sanitizer, utils path validator, stream pipeline).

Python runtime values appearing in tool argument maps are modelled by
`PyVal`; Python `isinstance` semantics (in particular `bool` being a
subtype of `int`) are modelled faithfully.  Filesystem state is an
explicit snapshot (`Env`); paths are resolved lexically (no symlinks).
-/

set_option maxHeartbeats 1000000

namespace Ocode

/-- Python runtime values as they occur in JSON-style tool argument maps.
`int`, `float` and `bool` are separate constructors; the Python fact that
`isinstance(True, int)` holds is reflected in the type-check functions,
not in the value representation. -/
inductive PyVal where
  | str (s : String)
  | int (n : Int)
  | float (q : Int)
  | bool (b : Bool)
  | list (xs : List PyVal)
  | dict (kvs : List (String × PyVal))
  | none

/-- Models `isinstance(v, str)` -/
def PyVal.isStr : PyVal → Bool
  | .str _ => true
  | _ => false

/-- Models `isinstance(v, (int, float))`; true for Python bools as well, because
`bool` is a subclass of `int` in Python. -/
def PyVal.isNumber : PyVal → Bool
  | .int _ => true
  | .float _ => true
  | .bool _ => true
  | _ => false

/-- Models `isinstance(v, bool)` -/
def PyVal.isBool : PyVal → Bool
  | .bool _ => true
  | _ => false

/-- Models `isinstance(v, list)` -/
def PyVal.isList : PyVal → Bool
  | .list _ => true
  | _ => false

/-- Models `isinstance(v, dict)` -/
def PyVal.isDict : PyVal → Bool
  | .dict _ => true
  | _ => false

/-- Models `v is None` -/
def PyVal.isNone : PyVal → Bool
  | .none => true
  | _ => false

/-- Substring test on character lists (used to model Python `in` on
strings and the simple literal regex patterns of the source). -/
def listContainsSeg (needle : List Char) : List Char → Bool
  | [] => needle.isEmpty
  | c :: rest => needle.isPrefixOf (c :: rest) || listContainsSeg needle rest

/-- Models `needle in hay` for strings. -/
def containsSub (needle hay : String) : Bool :=
  listContainsSeg needle.toList hay.toList

/-- Lower-case a string (models `re.IGNORECASE` by normalising the
subject; all patterns in the source are lower case). -/
def lowerStr (s : String) : String :=
  String.mk (s.toList.map Char.toLower)

/-- Models `s.startswith(pre)` (character-list implementation). -/
def strStartsWith (s pre : String) : Bool :=
  pre.toList.isPrefixOf s.toList

/-- Split a character list on `/` (the path-component split performed
by `pathlib` on POSIX paths). -/
def splitComponents : List Char → List Char → List String
  | [], acc => [String.mk acc.reverse]
  | c :: rest, acc =>
    if c = '/' then String.mk acc.reverse :: splitComponents rest []
    else splitComponents rest (c :: acc)

/-- The `/`-separated components of a path string. -/
def pathComponents (path : String) : List String :=
  splitComponents path.toList []

/-- First-match lookup in a Python-dict-like association list. -/
def lookupA (m : List (String × PyVal)) (k : String) : Option PyVal :=
  match m.find? (fun kv => kv.1 == k) with
  | some kv => some kv.2
  | Option.none => Option.none

/-- Key-membership in a Python-dict-like association list. -/
def containsKey (m : List (String × PyVal)) (k : String) : Bool :=
  m.any (fun kv => kv.1 == k)

/-- Python dict assignment `m[k] = v`: update in place if present,
append otherwise. -/
def insertA (m : List (String × PyVal)) (k : String) (v : PyVal) : List (String × PyVal) :=
  if containsKey m k then m.map (fun kv => if kv.1 == k then (k, v) else kv)
  else m ++ [(k, v)]

/-- Python `base.update(extra)` on dicts: existing keys are overwritten
in place, new keys appended. -/
def updateA (base extra : List (String × PyVal)) : List (String × PyVal) :=
  extra.foldl (fun m kv => insertA m kv.1 kv.2) base

/-- Models `ToolParameter` dataclass from `tools/base.py`.  `default` is the
Python attribute, whose absent value is Python `None` (`PyVal.none`). -/
structure ToolParameter where
  name : String
  type : String
  description : String
  required : Bool := true
  default : PyVal := PyVal.none

/-- Models `ToolDefinition` dataclass from `tools/base.py`. -/
structure ToolDefinition where
  name : String
  description : String
  parameters : List ToolParameter
  category : String := "General"

/-- Models `ToolResult` dataclass from `tools/base.py`.  `metadata` is optional:
several failure paths in the source construct a result without any
metadata at all. -/
structure ToolResult where
  success : Bool
  output : String
  error : Option String := Option.none
  metadata : Option (List (String × PyVal)) := Option.none

/-- Models `ErrorType` enumeration from `tools/base.py`. -/
inductive ErrorType where
  | validation
  | permission
  | file_not_found
  | timeout
  | resource
  | network
  | security
  | internal
deriving DecidableEq

/-- The `.value` string of each `ErrorType` member. -/
def ErrorType.value : ErrorType → String
  | .validation => "validation_error"
  | .permission => "permission_error"
  | .file_not_found => "file_not_found"
  | .timeout => "timeout_error"
  | .resource => "resource_error"
  | .network => "network_error"
  | .security => "security_error"
  | .internal => "internal_error"

/-- The `error_type` entry of a result metadata mapping, as a string. -/
def ToolResult.errType (r : ToolResult) : Option String :=
  match r.metadata with
  | some m =>
    match lookupA m "error_type" with
    | some (PyVal.str s) => some s
    | _ => Option.none
  | Option.none => Option.none

/-- Whether a result metadata mapping is present and has an `error_type`
key (of any value). -/
def ToolResult.hasErrTypeKey (r : ToolResult) : Bool :=
  match r.metadata with
  | some m => containsKey m "error_type"
  | Option.none => false

namespace ErrorHandler

/-- Models `ErrorHandler.create_error_result` from `tools/base.py`: metadata
starts as the singleton error_type dict and is updated with the extra
entries. -/
def create_error_result (error_msg : String) (error_type : ErrorType)
    (metadata : List (String × PyVal)) : ToolResult :=
  { success := false, output := "", error := some error_msg,
    metadata := some (updateA [("error_type", PyVal.str error_type.value)] metadata) }

/-- Models `ErrorHandler.create_success_result` from `tools/base.py`. -/
def create_success_result (output : String)
    (metadata : List (String × PyVal)) : ToolResult :=
  { success := true, output := output, metadata := some metadata }

/-- The Python exceptions distinguished by `ErrorHandler.handle_exception`. -/
inductive PyExc where
  | toolError (msg : String) (error_type : ErrorType) (details : List (String × PyVal))
  | fileNotFound (msg : String)
  | permissionDenied (msg : String)
  | timedOut (msg : String)
  | osError (msg : String)
  | other (exceptionType msg : String)

/-- Models `ErrorHandler.handle_exception` from `tools/base.py`. -/
def handle_exception (e : PyExc) (context : String) : ToolResult :=
  match e with
  | .toolError msg et details =>
    { success := false, output := "", error := some msg,
      metadata := some (updateA
        [("error_type", PyVal.str et.value), ("context", PyVal.str context)] details) }
  | .fileNotFound msg =>
    { success := false, output := "", error := some ("File not found: " ++ msg),
      metadata := some [("error_type", PyVal.str ErrorType.file_not_found.value),
                        ("context", PyVal.str context)] }
  | .permissionDenied msg =>
    { success := false, output := "", error := some ("Permission denied: " ++ msg),
      metadata := some [("error_type", PyVal.str ErrorType.permission.value),
                        ("context", PyVal.str context)] }
  | .timedOut msg =>
    { success := false, output := "", error := some ("Operation timed out: " ++ msg),
      metadata := some [("error_type", PyVal.str ErrorType.timeout.value),
                        ("context", PyVal.str context)] }
  | .osError msg =>
    { success := false, output := "", error := some ("I/O error: " ++ msg),
      metadata := some [("error_type", PyVal.str ErrorType.resource.value),
                        ("context", PyVal.str context)] }
  | .other ty msg =>
    { success := false, output := "", error := some ("Unexpected error: " ++ msg),
      metadata := some [("error_type", PyVal.str ErrorType.internal.value),
                        ("context", PyVal.str context),
                        ("exception_type", PyVal.str ty)] }

/-- Models `ErrorHandler.validate_required_params` from `tools/base.py`:
required names missing from the map, or mapped to Python `None`, produce
a validation-error result; otherwise `None` is returned. -/
def missingParams (kwargs : List (String × PyVal))
    (required_params : List String) : List String :=
  required_params.filter
    (fun p => !(containsKey kwargs p) ||
      (match lookupA kwargs p with
       | some PyVal.none => true
       | _ => false))

def validate_required_params (kwargs : List (String × PyVal))
    (required_params : List String) : Option ToolResult :=
  if (missingParams kwargs required_params).isEmpty then Option.none
  else some
    { success := false, output := "",
      error := some ("Missing required parameters: " ++
        String.intercalate ", " (missingParams kwargs required_params)),
      metadata := some [("error_type", PyVal.str ErrorType.validation.value),
                        ("missing_params",
                         PyVal.list ((missingParams kwargs required_params).map PyVal.str))] }

end ErrorHandler

/-- First declared parameter with the given name
(`next((p for p in definition.parameters if p.name == param_name), None)`). -/
def findParam (d : ToolDefinition) (n : String) : Option ToolParameter :=
  d.parameters.find? (fun p => p.name == n)

/-- The per-parameter body of `Tool.validate_parameters`: the memory-tool
special case for `value` parameters documented as JSON-serializable,
followed by the `elif` chain of `isinstance` checks. -/
def typeCheckOk (p : ToolParameter) (param_name : String) (v : PyVal) : Bool :=
  if param_name == "value" && containsSub "JSON-serializable" p.description then true
  else if p.type == "string" then v.isStr
  else if p.type == "number" then v.isNumber
  else if p.type == "boolean" then v.isBool
  else if p.type == "array" then v.isList
  else if p.type == "object" then v.isDict
  else true

/-- Models `Tool.validate_parameters` from `tools/base.py`: every required
declared parameter must be a key of the map; every entry of the map whose
name is declared must pass the `isinstance` chain; entries whose name is
not declared are skipped. -/
def ToolDefinition.validate_parameters (d : ToolDefinition)
    (kwargs : List (String × PyVal)) : Bool :=
  d.parameters.all (fun p => !p.required || containsKey kwargs p.name) &&
  kwargs.all (fun kv =>
    match findParam d kv.1 with
    | some p => typeCheckOk p kv.1 kv.2
    | Option.none => true)

/-- The per-parameter property object built by
`ToolDefinition.to_ollama_format`. -/
def paramProperty (p : ToolParameter) : PyVal :=
  PyVal.dict
    (if p.default.isNone then
      [("type", PyVal.str p.type), ("description", PyVal.str p.description)]
     else
      [("type", PyVal.str p.type), ("description", PyVal.str p.description),
       ("default", p.default)])

/-- The `properties` dict accumulated by `to_ollama_format`
(Python dict assignment per parameter, in declaration order). -/
def ToolDefinition.properties (d : ToolDefinition) : List (String × PyVal) :=
  d.parameters.foldl (fun m p => insertA m p.name (paramProperty p)) []

/-- The `required` list accumulated by `to_ollama_format`. -/
def ToolDefinition.requiredNames (d : ToolDefinition) : List String :=
  (d.parameters.filter (fun p => p.required)).map (fun p => p.name)

/-- Models `ToolDefinition.to_ollama_format` from `tools/base.py`. -/
def ToolDefinition.to_ollama_format (d : ToolDefinition) : PyVal :=
  PyVal.dict
    [("type", PyVal.str "function"),
     ("function", PyVal.dict
       [("name", PyVal.str d.name),
        ("description", PyVal.str d.description),
        ("parameters", PyVal.dict
          [("type", PyVal.str "object"),
           ("properties", PyVal.dict d.properties),
           ("required", PyVal.list (d.requiredNames.map PyVal.str))])])]

/-! ### Filesystem and path model (`file_tools.py`) -/

/-- A filesystem snapshot: files (absolute component path and content)
and directories (absolute component paths), plus the current working
directory as an already-resolved absolute component path. -/
structure Env where
  cwd : List String
  files : List (List String × String) := []
  dirs : List (List String) := []

/-- Whether an absolute component path names an existing file. -/
def Env.isFile (e : Env) (p : List String) : Bool :=
  e.files.any (fun f => f.1 == p)

/-- Content of a file (empty when absent). -/
def Env.content (e : Env) (p : List String) : String :=
  match e.files.find? (fun f => f.1 == p) with
  | some f => f.2
  | Option.none => ""

/-- Whether an absolute component path exists (file or directory). -/
def Env.pathExists (e : Env) (p : List String) : Bool :=
  e.isFile p || e.dirs.contains p

/-- Lexical path normalisation as performed by `Path(path).resolve()` on
a symlink-free tree: empty and `.` components are dropped, `..` removes
the last accumulated component (staying at the root at the top). -/
def normalize (acc : List String) : List String → List String
  | [] => acc
  | c :: rest =>
    if c = "" || c = "." then normalize acc rest
    else if c = ".." then normalize acc.dropLast rest
    else normalize (acc ++ [c]) rest

/-- Models `Path(path).resolve()`: absolute paths resolve from the root,
relative ones from the current working directory. -/
def resolvePath (cwd : List String) (path : String) : List String :=
  if strStartsWith path "/" then normalize [] (pathComponents path)
  else normalize cwd (pathComponents path)

/-- The suspicious-pattern scan of `PathValidator.validate_path`
(`file_tools.py` lines 33-45): literal translations of the seven
regular expressions, matched case-insensitively. -/
def suspiciousPath (path : String) : Bool :=
  let p := lowerStr path
  containsSub "../" p || containsSub "..\\" p ||
  path.toList.any (fun c => c.toNat ≤ 31) ||
  strStartsWith p "/proc/" || strStartsWith p "/proc\\" ||
  strStartsWith p "\\proc/" || strStartsWith p "\\proc\\" ||
  strStartsWith p "/sys/" || strStartsWith p "/sys\\" ||
  strStartsWith p "\\sys/" || strStartsWith p "\\sys\\" ||
  strStartsWith p "/dev/" || strStartsWith p "/dev\\" ||
  strStartsWith p "\\dev/" || strStartsWith p "\\dev\\" ||
  containsSub "/etc/passwd" p || containsSub "/etc\\passwd" p ||
  containsSub "\\etc/passwd" p || containsSub "\\etc\\passwd" p ||
  containsSub "/etc/shadow" p || containsSub "/etc\\shadow" p ||
  containsSub "\\etc/shadow" p || containsSub "\\etc\\shadow" p

/-- Models `PathValidator` from `file_tools.py`. -/
structure PathValidator where
  allowed_base_paths : List String
  max_path_length : Nat := 4096

/-- The allowed-base containment loop of `PathValidator.validate_path`:
`resolved_path.relative_to(resolved_base)` succeeds exactly when the
base components are a prefix of the path components. -/
def withinAllowed (v : PathValidator) (e : Env) (resolved : List String) : Bool :=
  v.allowed_base_paths.any
    (fun base => (resolvePath e.cwd base).isPrefixOf resolved)

/-- Models `PathValidator.validate_path` from `file_tools.py`: length check,
suspicious-pattern scan, resolution, allowed-base containment, and —
only when `allow_creation` is false — an existence check. -/
def PathValidator.validate_path (v : PathValidator) (e : Env) (path : String)
    (allow_creation : Bool) : Bool × String × Option (List String) :=
  if path = "" || path.length > v.max_path_length then
    (false, "Invalid path length", Option.none)
  else if suspiciousPath path then
    (false, "Path contains suspicious pattern", Option.none)
  else if withinAllowed v e (resolvePath e.cwd path) then
    if !allow_creation && !(e.pathExists (resolvePath e.cwd path)) then
      (false, "Path does not exist", Option.none)
    else
      (true, "", some (resolvePath e.cwd path))
  else
    (false, "Path is outside allowed directories", Option.none)

/-! ### FileReadTool (`file_tools.py`) -/

namespace FileReadTool

/-- The `file_read` tool definition from `file_tools.py`. -/
def definition : ToolDefinition :=
  { name := "file_read",
    description := "Read the contents of a file",
    category := "File Operations",
    parameters :=
      [{ name := "path", type := "string",
         description := "Path to the file to read", required := true },
       { name := "encoding", type := "string",
         description := "File encoding (default: utf-8)", required := false,
         default := PyVal.str "utf-8" }] }

/-- Models `Path.with_suffix(ext)` on the last component: the extension after
the final dot of the name (when the dot is not the leading character) is
replaced by `ext`; a name without an extension gets `ext` appended. -/
def withSuffix (p : List String) (ext : String) : List String :=
  match p.getLast? with
  | Option.none => p
  | some nm =>
    let chars := nm.toList
    let stemLen :=
      match (List.range chars.length).filter
          (fun i => 0 < i && chars.get? i = some '.') with
      | [] => chars.length
      | is => is.getLast!
    p.dropLast ++ [String.mk (chars.take stemLen) ++ ext]

/-- Models `FileReadTool._try_common_extensions`: the base path itself when it
exists, otherwise the first of `.md`, `.txt`, `.rst`, `.markdown` whose
substitution exists. -/
def try_common_extensions (e : Env) (base_path : List String) : Option (List String) :=
  if e.pathExists base_path then some base_path
  else
    match [".md", ".txt", ".rst", ".markdown"].filter
        (fun ext => e.pathExists (withSuffix base_path ext)) with
    | [] => Option.none
    | ext :: _ => some (withSuffix base_path ext)

/-- The body of `FileReadTool.execute` after a successful path
validation: extension fallback, file check, size check, read.  Returns
the `ToolResult` together with a flag that is true exactly when the
branch that opens the file was reached; `encoding` never influences the
modelled result because the source opens files with
`errors="replace"`. -/
def afterValidation (e : Env) (path : String) (validated_path : List String) :
    ToolResult × Bool :=
  match try_common_extensions e validated_path with
  | Option.none =>
    (ErrorHandler.create_error_result
      ("File does not exist: " ++ path) ErrorType.file_not_found
      [("path", PyVal.str path),
       ("attempted_extensions",
        PyVal.list [PyVal.str ".md", PyVal.str ".txt",
                    PyVal.str ".rst", PyVal.str ".markdown"])], false)
  | some resolved_path =>
    if !(e.isFile resolved_path) then
      (ErrorHandler.create_error_result "Path is not a file"
        ErrorType.validation [("path", PyVal.str (String.intercalate "/" resolved_path))],
       false)
    else if (e.content resolved_path).utf8ByteSize > 50 * 1024 * 1024 then
      (ErrorHandler.create_error_result "File too large" ErrorType.resource
        [("file_size", PyVal.int (e.content resolved_path).utf8ByteSize),
         ("max_size", PyVal.int (50 * 1024 * 1024))], false)
    else
      (ErrorHandler.create_success_result (e.content resolved_path)
        [("file_size", PyVal.int (e.content resolved_path).utf8ByteSize),
         ("resolved_path", PyVal.str (String.intercalate "/" resolved_path))],
       true)

/-- Models `FileReadTool.execute` on a present `path` argument: security
validation via the `PathValidator`, then `afterValidation`. -/
def executeSome (v : PathValidator) (e : Env) (path : String) :
    ToolResult × Bool :=
  match v.validate_path e path false with
  | (false, error_msg, _) =>
    (ErrorHandler.create_error_result ("Path validation failed: " ++ error_msg)
      ErrorType.security [("path", PyVal.str path)], false)
  | (true, _, Option.none) =>
    -- dead branch: a successful validation always carries a resolved path
    (ErrorHandler.create_error_result "unreachable" ErrorType.internal [], false)
  | (true, _, some validated_path) => afterValidation e path validated_path

/-- Models `FileReadTool.execute` proper: the required-parameter check on the
(optional) `path` argument, then the body above. -/
def execute (v : PathValidator) (e : Env) (path? : Option String) :
    ToolResult × Bool :=
  match path? with
  | Option.none =>
    (match ErrorHandler.validate_required_params [] ["path"] with
     | some r => (r, false)
     | Option.none => ({ success := false, output := "" }, false))
  | some path => executeSome v e path

end FileReadTool

/-! ### FileWriteTool (`file_tools.py`) -/

namespace FileWriteTool

/-- The `file_write` tool definition from `file_tools.py`. -/
def definition : ToolDefinition :=
  { name := "file_write",
    description := "Write content to a file",
    category := "File Operations",
    parameters :=
      [{ name := "path", type := "string",
         description := "Path to the file to write", required := true },
       { name := "content", type := "string",
         description := "Content to write to the file", required := true },
       { name := "encoding", type := "string",
         description := "File encoding (default: utf-8)", required := false,
         default := PyVal.str "utf-8" },
       { name := "create_dirs", type := "boolean",
         description := "Create parent directories if they do not exist",
         required := false, default := PyVal.bool true }] }

/-- Behaviour of the underlying filesystem calls made by
`FileWriteTool.execute`: `some msg` means the call raises with message
`msg`. -/
structure WriteFS where
  mkdirRaises : Option String := Option.none
  openWriteRaises : Option String := Option.none

/-- Models `FileWriteTool.execute` from `file_tools.py`: no path validator is
consulted; parent directories are created when `create_dirs` (default
true); any exception from the filesystem calls becomes a plain failure
result without metadata. -/
def execute (w : WriteFS) (path content : String)
    (create_dirs : Bool := true) : ToolResult :=
  let attemptWrite : ToolResult :=
    match w.openWriteRaises with
    | some exc =>
      { success := false, output := "",
        error := some ("Failed to write file: " ++ exc) }
    | Option.none =>
      { success := true,
        output := "Successfully wrote " ++ toString content.length ++
          " characters to " ++ path,
        metadata := some [("bytes_written", PyVal.int content.utf8ByteSize)] }
  if create_dirs then
    match w.mkdirRaises with
    | some exc =>
      { success := false, output := "",
        error := some ("Failed to write file: " ++ exc) }
    | Option.none => attemptWrite
  else attemptWrite

end FileWriteTool

/-- The `file_search` tool definition from `file_tools.py`
(`FileSearchTool.definition`); its `max_results` parameter is declared
with type `number`. -/
def FileSearchTool.definition : ToolDefinition :=
  { name := "file_search",
    description := "Search for text patterns in files",
    parameters :=
      [{ name := "pattern", type := "string",
         description := "Text pattern to search for", required := true },
       { name := "path", type := "string",
         description := "Path to search in (default: current directory)",
         required := false, default := PyVal.str "." },
       { name := "extensions", type := "array",
         description := "File extensions to search in", required := false },
       { name := "case_sensitive", type := "boolean",
         description := "Case sensitive search", required := false,
         default := PyVal.bool false },
       { name := "max_results", type := "number",
         description := "Maximum number of results to return",
         required := false, default := PyVal.int 50 }] }

/-! ### ToolRegistry (`base.py`) -/

/-- A registered tool: its definition plus its `execute` implementation,
which either returns a result or raises (the exception message). -/
structure RegisteredTool where
  dfn : ToolDefinition
  impl : List (String × PyVal) → Except String ToolResult

/-- The registry's name-keyed tool mapping. -/
structure ToolRegistry where
  tools : List RegisteredTool

/-- Models `ToolRegistry.get_tool`. -/
def ToolRegistry.get_tool (reg : ToolRegistry) (name : String) : Option RegisteredTool :=
  reg.tools.find? (fun t => t.dfn.name == name)

/-- Models `ToolRegistry.execute_tool` from `tools/base.py`: unknown tool names,
parameter-validation failures and raising implementations each yield a
failure result constructed directly — with no metadata. -/
def ToolRegistry.execute_tool (reg : ToolRegistry) (tool_name : String)
    (kwargs : List (String × PyVal)) : ToolResult :=
  match reg.get_tool tool_name with
  | Option.none =>
    { success := false, output := "",
      error := some ("Tool " ++ tool_name ++ " not found") }
  | some tool =>
    if !(tool.dfn.validate_parameters kwargs) then
      { success := false, output := "",
        error := some ("Invalid parameters for tool " ++ tool_name) }
    else
      match tool.impl kwargs with
      | Except.ok r => r
      | Except.error exc =>
        { success := false, output := "",
          error := some ("Tool execution failed: " ++ exc) }

/-! ### ProcessManager (`bash_tool.py`) -/

namespace ProcessManager

/-- Signals a process can receive during termination escalation. -/
inductive Sig where
  | term
  | kill
  | killpg
deriving DecidableEq

/-- A child process handle: its return code (`some` once exited), its
reaction to the two escalation stages, and the log of signals it has
received.  `exitsOnTerm` / `exitsOnKill` say whether the process exits
within the 5-second / 2-second waits of the source. -/
structure Proc where
  pid : Nat
  returncode : Option Int := Option.none
  exitsOnTerm : Bool := true
  exitsOnKill : Bool := true
  signals : List Sig := []
deriving DecidableEq

/-- The manager's set of live handles. -/
structure State where
  active_processes : List Proc := []
deriving DecidableEq

/-- Models `ProcessManager._terminate_process` from `bash_tool.py`: return
immediately for an already-exited process; otherwise send the graceful
signal, escalate to a forceful kill after the 5-second wait, and to an
OS-level process-group kill after the further 2-second wait. -/
def terminate_process (p : Proc) : Proc :=
  if p.returncode.isSome then p
  else if p.exitsOnTerm then
    { p with signals := p.signals ++ [Sig.term], returncode := some (-15) }
  else if p.exitsOnKill then
    { p with signals := p.signals ++ [Sig.term, Sig.kill], returncode := some (-9) }
  else
    { p with
      signals := p.signals ++ [Sig.term, Sig.kill, Sig.killpg]
      returncode := some (-9) }

/-- Models `ProcessManager.cleanup_all` from `bash_tool.py`: every registered
process is put through `terminate_process` and the set is cleared.
Returns the terminated handles together with the new manager state. -/
def cleanup_all (s : State) : List Proc × State :=
  (s.active_processes.map terminate_process, { active_processes := [] })

end ProcessManager

/-! ### BashTool (`bash_tool.py`) -/

namespace BashTool

/-- Modelled from the spec: `ocode_python/utils/command_sanitizer.py` is
not part of the source snapshot (only its caller in `bash_tool.py` is).
Spec section 4.2 requires the sanitizer to reject, among others,
recursive-forced deletion of root or system directories, unconditional
shutdown or reboot, `mkfs`, and fork-bomb shapes; strict mode also
rejects wildcard bulk deletion. -/
def dangerous_command (command : String) (strict_mode : Bool) : Bool :=
  let c := lowerStr command
  containsSub "rm -rf /" c || containsSub "rm -fr /" c ||
  containsSub "mkfs" c || containsSub "shutdown" c ||
  containsSub "reboot" c || containsSub ":()\x7b :|:& \x7d;:" c ||
  (strict_mode && (containsSub "rm -rf *" c || containsSub "rm -fr *" c))

/-- Modelled from the spec: `command_sanitizer.sanitize_command` (not
under the snapshot) answers `(ok, possibly-rewritten-command, reason)`;
dangerous commands are rejected, not rewritten (spec section 4.2). -/
def sanitize_command (command : String) (strict_mode : Bool) :
    Bool × String × Option String :=
  if dangerous_command command strict_mode then
    (false, command, some "dangerous pattern detected")
  else
    (true, command, Option.none)

/-- Modelled from the spec: `ocode_python/utils/path_validator.py` (not
under the snapshot) exposes `validate_path(path, check_exists)` with the
contract of spec section 4.2, i.e. the same checks as
`PathValidator.validate_path` with `allow_creation = not check_exists`. -/
def utils_validate_path (v : PathValidator) (e : Env) (path : String)
    (check_exists : Bool) : Bool × String × Option (List String) :=
  v.validate_path e path (!check_exists)

/-- Everything `BashTool.execute` needs from its surroundings: the
working-directory validator configuration, the filesystem snapshot, and
the result the spawned shell would produce (used only after the safety
gate has been passed). -/
structure BashEnv where
  v : PathValidator
  e : Env
  spawnResult : String → ToolResult

/-- Models `BashTool.execute` from `bash_tool.py`, modelled up to the point
where a child process would be spawned.  Returns the `ToolResult`
together with a flag that is true exactly when a child process is
spawned.  The empty-command check, the working-directory validation, the
`is_dir` check and the safe-mode gate are taken from the source; the
sanitizer itself is spec-modelled above. -/
def execute (be : BashEnv) (command : String) (working_dir : String := ".")
    (safe_mode : Bool := true) : ToolResult × Bool :=
  if command = "" then
    ({ success := false, output := "",
       error := some "Command parameter is required" }, false)
  else
    match utils_validate_path be.v be.e working_dir true with
    | (false, error_msg, _) =>
      ({ success := false, output := "",
         error := some ("Working directory validation failed: " ++ error_msg) },
       false)
    | (true, _, work_dir?) =>
      if !(be.e.dirs.contains (work_dir?.getD [])) then
        ({ success := false, output := "",
           error := some ("Working directory is not a directory: " ++ working_dir) },
         false)
      else
        if safe_mode then
          match sanitize_command command true with
          | (false, _, sanitize_error) =>
            ({ success := false, output := "",
               error := some ("Command blocked for safety: " ++
                 sanitize_error.getD "") }, false)
          | (true, sanitized_cmd, _) =>
            (be.spawnResult sanitized_cmd, true)
        else
          (be.spawnResult command, true)

end BashTool

/-- A concrete bash environment: allowed base `/work`, working directory
`/work`, and a spawn function that would report success. -/
def bashDemoEnv : BashTool.BashEnv :=
  { v := { allowed_base_paths := ["/work"] },
    e := { cwd := ["work"], dirs := [["work"]] },
    spawnResult := fun _ => { success := true, output := "" } }

/-! ### Stream Pipeline (spec-modelled) -/

namespace StreamPipeline

/-- Pipeline operation type (spec section 3, `Operation`). -/
inductive OpType where
  | read
  | analyze
  | write
deriving DecidableEq

/-- Modelled from the spec: the Stream Pipeline implementation
(`StreamProcessor.process_pipeline`) is not part of the source snapshot
(only demo callers are).  An `Operation` is a pipeline DAG node (spec
section 3). -/
structure Operation where
  operation_id : Nat
  operation_type : OpType
  dependencies : List Nat := []
deriving DecidableEq

/-- Scheduler state of one pipeline instance: the identifiers of
operations currently in flight and the completion order so far (most
recent last). -/
structure PState where
  running : List Nat := []
  completed : List Nat := []
deriving DecidableEq

/-- The operation with a given identifier. -/
def findOp (ops : List Operation) (i : Nat) : Option Operation :=
  ops.find? (fun o => o.operation_id == i)

/-- Whether an identifier names a write operation. -/
def isWriteId (ops : List Operation) (i : Nat) : Bool :=
  match findOp ops i with
  | some o => o.operation_type == OpType.write
  | Option.none => false

/-- Dependencies of the operation with a given identifier. -/
def depsOf (ops : List Operation) (i : Nat) : List Nat :=
  match findOp ops i with
  | some o => o.dependencies
  | Option.none => []

/-- Modelled from the spec: one scheduling step of the pipeline
execution model (spec section 4.5).  An operation may start when all of
its dependencies have completed, and a write may start only when no
other write is in flight (writes run serially, one at a time); an
operation in flight may complete, which appends it to the completion
order. -/
inductive Step (ops : List Operation) : PState → PState → Prop where
  | start (s : PState) (o : Operation) :
      o ∈ ops →
      o.operation_id ∉ s.running →
      o.operation_id ∉ s.completed →
      (∀ d ∈ o.dependencies, d ∈ s.completed) →
      (o.operation_type = OpType.write →
        ∀ r ∈ s.running, isWriteId ops r = false) →
      Step ops s { running := o.operation_id :: s.running, completed := s.completed }
  | finish (s : PState) (i : Nat) :
      i ∈ s.running →
      Step ops s { running := s.running.erase i, completed := s.completed ++ [i] }

/-- States reachable from the empty pipeline state. -/
inductive Reachable (ops : List Operation) : PState → Prop where
  | init : Reachable ops {}
  | step {s t : PState} : Reachable ops s → Step ops s t → Reachable ops t

/-- Number of write operations currently in flight. -/
def writesInFlight (ops : List Operation) (s : PState) : Nat :=
  (s.running.filter (isWriteId ops)).length

/-- A completion order is consistent with the DAG when every completed
operation's dependencies appear strictly before it. -/
def respectsDag (ops : List Operation) (l : List Nat) : Prop :=
  ∀ (k : Nat) (h : k < l.length), ∀ d ∈ depsOf ops l[k], d ∈ l.take k

/-- Distinct operation identifiers: the well-formedness the spec imposes
at submission (duplicate ids are rejected). -/
def wellFormed (ops : List Operation) : Prop :=
  (ops.map (fun o => o.operation_id)).Nodup

/-- The inductive invariant: at most one write in flight, every running
operation has all dependencies completed, and the completion order
respects the DAG. -/
def Inv (ops : List Operation) (s : PState) : Prop :=
  writesInFlight ops s ≤ 1 ∧
  (∀ i ∈ s.running, ∀ d ∈ depsOf ops i, d ∈ s.completed) ∧
  respectsDag ops s.completed

end StreamPipeline

/-- A two-operation pipeline: a read, then a dependent write. -/
def pipelineDemoOps : List StreamPipeline.Operation :=
  [{ operation_id := 1, operation_type := StreamPipeline.OpType.read },
   { operation_id := 2, operation_type := StreamPipeline.OpType.write,
     dependencies := [1] }]


/-! ### Spec-side predicates for the refinement claims -/

/-- Structural JSON-Schema type matching as the spec words it: `number`
accepts int or float (a JSON boolean is not a number), `array` requires
an ordered sequence, `object` requires a string-keyed mapping. -/
def specTypeMatch (ty : String) (v : PyVal) : Bool :=
  if ty == "string" then v.isStr
  else if ty == "number" then
    (match v with
     | PyVal.int _ => true
     | PyVal.float _ => true
     | _ => false)
  else if ty == "boolean" then v.isBool
  else if ty == "array" then v.isList
  else if ty == "object" then v.isDict
  else true

/-- The validation contract exactly as claim C2 words it: required
parameters present, present parameters structurally matching their
declared type, and unknown parameter names rejected. -/
def claimedValidation (d : ToolDefinition) (args : List (String × PyVal)) : Bool :=
  d.parameters.all (fun p => !p.required || containsKey args p.name) &&
  args.all (fun kv =>
    match findParam d kv.1 with
    | some p => specTypeMatch p.type kv.2
    | Option.none => false)

/-- Python `isinstance` type matching, one `elif` arm per declared type
tag, exactly as in `Tool.validate_parameters` (a bool is accepted where
a number is declared because Python bools are ints). -/
def pyTypeMatch (ty : String) (v : PyVal) : Bool :=
  if ty == "string" then v.isStr
  else if ty == "number" then v.isNumber
  else if ty == "boolean" then v.isBool
  else if ty == "array" then v.isList
  else if ty == "object" then v.isDict
  else true

/-- Acceptance of an argument map against the declared schema of a
produced descriptor, read back from the descriptor itself, as JSON Schema
prescribes: every name in `required` present, every present argument
whose name occurs in `properties` of the declared primitive type;
properties not declared are permitted (no `additionalProperties`
constraint is emitted). -/
def satisfiesDeclaredSchema (descriptor : PyVal) (args : List (String × PyVal)) : Bool :=
  match descriptor with
  | PyVal.dict top =>
    (match lookupA top "function" with
     | some (PyVal.dict fn) =>
       (match lookupA fn "parameters" with
        | some (PyVal.dict ps) =>
          (match lookupA ps "required" with
           | some (PyVal.list req) =>
             req.all (fun r =>
               match r with
               | PyVal.str n => containsKey args n
               | _ => false)
           | _ => false) &&
          (match lookupA ps "properties" with
           | some (PyVal.dict props) =>
             args.all (fun kv =>
               match lookupA props kv.1 with
               | some (PyVal.dict pd) =>
                 (match lookupA pd "type" with
                  | some (PyVal.str ty) => specTypeMatch ty kv.2
                  | _ => true)
               | _ => true)
           | _ => false)
        | _ => false)
     | _ => false)
  | _ => false

/-- Acceptance of an argument map against a produced descriptor under
Python `isinstance` semantics, including the exemption for parameters
named `value` whose recorded description mentions JSON-serializable.
This is the schema meaning that the implementation actually enforces. -/
def pySatisfiesDescriptor (descriptor : PyVal) (args : List (String × PyVal)) : Bool :=
  match descriptor with
  | PyVal.dict top =>
    (match lookupA top "function" with
     | some (PyVal.dict fn) =>
       (match lookupA fn "parameters" with
        | some (PyVal.dict ps) =>
          (match lookupA ps "required" with
           | some (PyVal.list req) =>
             req.all (fun r =>
               match r with
               | PyVal.str n => containsKey args n
               | _ => false)
           | _ => false) &&
          (match lookupA ps "properties" with
           | some (PyVal.dict props) =>
             args.all (fun kv =>
               match lookupA props kv.1 with
               | some (PyVal.dict pd) =>
                 if kv.1 == "value" &&
                     (match lookupA pd "description" with
                      | some (PyVal.str ds) => containsSub "JSON-serializable" ds
                      | _ => false) then true
                 else
                   (match lookupA pd "type" with
                    | some (PyVal.str ty) => pyTypeMatch ty kv.2
                    | _ => true)
               | _ => true)
           | _ => false)
        | _ => false)
     | _ => false)
  | _ => false

/-! ### Helper lemmas -/

lemma containsKey_insertA_of (m : List (String × PyVal)) (a k : String) (v : PyVal)
    (h : containsKey m k = true) : containsKey (insertA m a v) k = true := by
  unfold insertA
  split
  · rcases List.any_eq_true.1 h with ⟨kv, hkv, hk⟩
    refine List.any_eq_true.2 ?_
    refine ⟨if kv.1 == a then (a, v) else kv, List.mem_map_of_mem _ hkv, ?_⟩
    by_cases hae : (kv.1 == a) = true
    · have ha : kv.1 = a := by simpa using hae
      have hk' : kv.1 = k := by simpa using hk
      have hak : a = k := ha ▸ hk'
      simp [hae, hak, hk']
    · simp only [hae]
      simpa using hk
  · refine List.any_eq_true.2 ?_
    rcases List.any_eq_true.1 h with ⟨kv, hkv, hk⟩
    exact ⟨kv, List.mem_append_left _ hkv, hk⟩

lemma containsKey_updateA_of (m extra : List (String × PyVal)) (k : String)
    (h : containsKey m k = true) : containsKey (updateA m extra) k = true := by
  unfold updateA
  induction extra generalizing m with
  | nil => exact h
  | cons kv extra ih => exact ih _ (containsKey_insertA_of m kv.1 k kv.2 h)

lemma hasErrTypeKey_create_error_result (msg : String) (et : ErrorType)
    (extra : List (String × PyVal)) :
    (ErrorHandler.create_error_result msg et extra).hasErrTypeKey = true := by
  unfold ErrorHandler.create_error_result ToolResult.hasErrTypeKey
  exact containsKey_updateA_of _ _ _ rfl

/-! ### Claim C1 -/

/-- C1 counterexample: `ToolRegistry.execute_tool` on an unknown tool
name returns a failure whose metadata mapping is absent, so it cannot
contain an `error_type` key. -/
theorem C1_counterexample :
    ((ToolRegistry.execute_tool { tools := [] } "missing_tool" []).success = false) ∧
    ((ToolRegistry.execute_tool { tools := [] } "missing_tool" []).metadata
      = Option.none) :=
  ⟨rfl, rfl⟩

/-- C1 (amended): failure results built through the `ErrorHandler`
helpers carry a metadata mapping with an `error_type` key, but the
failure results constructed directly by `ToolRegistry.execute_tool`
(unknown tool, invalid parameters, raising implementation) and by
`FileWriteTool.execute` carry no metadata mapping at all. -/
theorem C1_theorem :
    (∀ (msg : String) (et : ErrorType) (extra : List (String × PyVal)),
      (ErrorHandler.create_error_result msg et extra).success = false ∧
      (ErrorHandler.create_error_result msg et extra).hasErrTypeKey = true) ∧
    (∀ (e : ErrorHandler.PyExc) (ctx : String),
      (ErrorHandler.handle_exception e ctx).success = false ∧
      (ErrorHandler.handle_exception e ctx).hasErrTypeKey = true) ∧
    (∀ (kwargs : List (String × PyVal)) (req : List String) (r : ToolResult),
      ErrorHandler.validate_required_params kwargs req = some r →
      r.success = false ∧ r.hasErrTypeKey = true) ∧
    (∀ (reg : ToolRegistry) (tool_name : String) (kwargs : List (String × PyVal)),
      reg.get_tool tool_name = Option.none →
      (reg.execute_tool tool_name kwargs).metadata = Option.none) ∧
    (∀ (reg : ToolRegistry) (t : RegisteredTool) (tool_name : String)
        (kwargs : List (String × PyVal)),
      reg.get_tool tool_name = some t →
      t.dfn.validate_parameters kwargs = false →
      (reg.execute_tool tool_name kwargs).metadata = Option.none) ∧
    (∀ (reg : ToolRegistry) (t : RegisteredTool) (tool_name : String)
        (kwargs : List (String × PyVal)) (exc : String),
      reg.get_tool tool_name = some t →
      t.dfn.validate_parameters kwargs = true →
      t.impl kwargs = Except.error exc →
      (reg.execute_tool tool_name kwargs).metadata = Option.none) ∧
    (∀ (w : FileWriteTool.WriteFS) (path content : String) (create_dirs : Bool),
      (FileWriteTool.execute w path content create_dirs).success = false →
      (FileWriteTool.execute w path content create_dirs).metadata = Option.none) := by
  refine ⟨?_, ?_, ?_, ?_, ?_, ?_, ?_⟩
  · intro msg et extra
    exact ⟨rfl, hasErrTypeKey_create_error_result msg et extra⟩
  · intro e ctx
    cases e with
    | toolError msg et details =>
      refine ⟨rfl, ?_⟩
      unfold ErrorHandler.handle_exception ToolResult.hasErrTypeKey
      exact containsKey_updateA_of _ _ _ rfl
    | fileNotFound msg => exact ⟨rfl, rfl⟩
    | permissionDenied msg => exact ⟨rfl, rfl⟩
    | timedOut msg => exact ⟨rfl, rfl⟩
    | osError msg => exact ⟨rfl, rfl⟩
    | other ty msg => exact ⟨rfl, rfl⟩
  · intro kwargs req r h
    unfold ErrorHandler.validate_required_params at h
    split at h
    · exact absurd h (by simp)
    · cases h
      exact ⟨rfl, rfl⟩

  · intro reg tool_name kwargs h
    simp [ToolRegistry.execute_tool, h]
  · intro reg t tool_name kwargs h hv
    simp [ToolRegistry.execute_tool, h, hv]
  · intro reg t tool_name kwargs exc h hv himpl
    simp [ToolRegistry.execute_tool, h, hv, himpl]
  · intro w path content create_dirs h
    rcases w with ⟨m, o⟩
    cases create_dirs <;> cases m <;> cases o <;>
      simp_all [FileWriteTool.execute]

/-- C1 witness: a concrete `ErrorHandler` failure carries the
`error_type` key. -/
theorem C1_witness :
    (ErrorHandler.create_error_result "boom" ErrorType.internal []).success = false ∧
    (ErrorHandler.create_error_result "boom" ErrorType.internal []).hasErrTypeKey = true :=
  C1_theorem.1 "boom" ErrorType.internal []

/-! ### Claim C2 -/

/-- C2 counterexample: `validate_parameters` accepts an argument map
containing the undeclared name `bogus` for the `file_read` tool, while
the claimed contract rejects unknown parameter names. -/
theorem C2_counterexample :
    FileReadTool.definition.validate_parameters
      [("path", PyVal.str "a"), ("bogus", PyVal.str "b")] = true ∧
    claimedValidation FileReadTool.definition
      [("path", PyVal.str "a"), ("bogus", PyVal.str "b")] = false :=
  ⟨rfl, rfl⟩

/-- C2 (amended): `validate_parameters` accepts exactly when every
required declared parameter name is a key of the map and every present
parameter whose name is declared either falls under the JSON-serializable
`value` exemption or matches its declared type under Python `isinstance`
semantics; unknown parameter names are ignored, not rejected. -/
theorem C2_theorem (d : ToolDefinition) (args : List (String × PyVal)) :
    d.validate_parameters args = true ↔
      ((∀ p ∈ d.parameters, p.required = true → containsKey args p.name = true) ∧
       (∀ kv ∈ args, ∀ p, findParam d kv.1 = some p →
          ((kv.1 = "value" ∧ containsSub "JSON-serializable" p.description = true) ∨
            pyTypeMatch p.type kv.2 = true))) := by
  unfold ToolDefinition.validate_parameters
  rw [Bool.and_eq_true, List.all_eq_true, List.all_eq_true]
  constructor
  · rintro ⟨h1, h2⟩
    constructor
    · intro p hp hreq
      have := h1 p hp
      simpa [hreq] using this
    · intro kv hkv p hfp
      have := h2 kv hkv
      rw [hfp] at this
      have ht : typeCheckOk p kv.1 kv.2 = true := this
      unfold typeCheckOk at ht
      by_cases hb : (kv.1 == "value" && containsSub "JSON-serializable" p.description) = true
      · rw [Bool.and_eq_true] at hb
        exact Or.inl ⟨by simpa using hb.1, hb.2⟩
      · rw [if_neg hb] at ht
        exact Or.inr ht
  · rintro ⟨h1, h2⟩
    constructor
    · intro p hp
      by_cases hreq : p.required = true
      · simpa [hreq] using h1 p hp hreq
      · simp [Bool.not_eq_true] at hreq
        simp [hreq]
    · intro kv hkv
      cases hfp : findParam d kv.1 with
      | none => rfl
      | some p =>
        have hd := h2 kv hkv p hfp
        show typeCheckOk p kv.1 kv.2 = true
        unfold typeCheckOk
        by_cases hb : (kv.1 == "value" && containsSub "JSON-serializable" p.description) = true
        · rw [if_pos hb]
        · rw [if_neg hb]
          rcases hd with hl | hr
          · refine absurd ?_ hb
            rw [Bool.and_eq_true]
            exact ⟨by simp [hl.1], hl.2⟩
          · exact hr

/-- C2 witness: the amended contract, instantiated at a concrete
accepted map for the `file_read` tool. -/
theorem C2_witness :
    (∀ p ∈ FileReadTool.definition.parameters, p.required = true →
        containsKey [("path", PyVal.str "a")] p.name = true) ∧
    (∀ kv ∈ [("path", PyVal.str "a")], ∀ p,
        findParam FileReadTool.definition kv.1 = some p →
        ((kv.1 = "value" ∧ containsSub "JSON-serializable" p.description = true) ∨
          pyTypeMatch p.type kv.2 = true)) :=
  (C2_theorem FileReadTool.definition [("path", PyVal.str "a")]).1 rfl

/-! ### Claim C6 -/

/-- C6: after `cleanup_all` the set of live handles is empty, every
registered handle has been put through `terminate_process`, terminating
an already-exited process is a no-op, and a live process receives the
graceful-then-forceful escalation and ends up exited. -/
theorem C6_theorem (s : ProcessManager.State) :
    (ProcessManager.cleanup_all s).2.active_processes = [] ∧
    (ProcessManager.cleanup_all s).1 =
      s.active_processes.map ProcessManager.terminate_process ∧
    (∀ p : ProcessManager.Proc, p.returncode.isSome = true →
      ProcessManager.terminate_process p = p) ∧
    (∀ p : ProcessManager.Proc, p.returncode = Option.none →
      (ProcessManager.terminate_process p).returncode.isSome = true ∧
      (ProcessManager.terminate_process p).signals = p.signals ++
        (if p.exitsOnTerm then [ProcessManager.Sig.term]
         else if p.exitsOnKill then [ProcessManager.Sig.term, ProcessManager.Sig.kill]
         else [ProcessManager.Sig.term, ProcessManager.Sig.kill,
               ProcessManager.Sig.killpg])) := by
  refine ⟨rfl, rfl, ?_, ?_⟩
  · intro p hp
    unfold ProcessManager.terminate_process
    rw [if_pos hp]
  · intro p hp
    unfold ProcessManager.terminate_process
    have hns : p.returncode.isSome = false := by simp [hp]
    rw [if_neg (by simp [hns])]
    by_cases h1 : p.exitsOnTerm = true
    · simp [h1]
    · rw [Bool.not_eq_true] at h1
      by_cases h2 : p.exitsOnKill = true
      · simp [h1, h2]
      · rw [Bool.not_eq_true] at h2
        simp [h1, h2]

/-- C6 witness: a concrete manager holding one already-exited process:
`cleanup_all` empties the set and the no-op property holds for that
process. -/
theorem C6_witness :
    (ProcessManager.cleanup_all
      { active_processes := [{ pid := 7, returncode := some 0 }] }).2.active_processes
        = [] ∧
    ProcessManager.terminate_process { pid := 7, returncode := some 0 } =
      { pid := 7, returncode := some 0 } :=
  ⟨(C6_theorem { active_processes := [{ pid := 7, returncode := some 0 }] }).1,
   (C6_theorem { active_processes := [] }).2.2.1
     { pid := 7, returncode := some 0 } rfl⟩

/-! ### Claim C8 -/

/-- C8: `FileWriteTool.execute` consults no path validator and can never
produce a security failure — it fails exactly when an underlying
filesystem call raises (`mkdir` only being attempted when `create_dirs`
is set), and its results never carry an `error_type` at all. -/
theorem C8_theorem (w : FileWriteTool.WriteFS) (path content : String)
    (create_dirs : Bool) :
    ((FileWriteTool.execute w path content create_dirs).success = false ↔
      ((create_dirs = true ∧ w.mkdirRaises.isSome = true) ∨
        w.openWriteRaises.isSome = true)) ∧
    (FileWriteTool.execute w path content create_dirs).errType = Option.none ∧
    (∀ m : Option String,
      FileWriteTool.execute
        { mkdirRaises := m, openWriteRaises := w.openWriteRaises }
        path content false =
      FileWriteTool.execute w path content false) := by
  refine ⟨?_, ?_, ?_⟩
  · rcases w with ⟨m, o⟩
    cases create_dirs <;> cases m <;> cases o <;>
      simp [FileWriteTool.execute]
  · rcases w with ⟨m, o⟩
    cases create_dirs <;> cases m <;> cases o <;>
      simp [FileWriteTool.execute, ToolResult.errType, lookupA, List.find?]
  · intro m
    rcases w with ⟨m', o⟩
    cases m <;> cases m' <;> cases o <;> rfl

/-- C8 witness: a concrete failing write (the open call raises) produces
a failure, and a metadata-free one. -/
theorem C8_witness :
    (FileWriteTool.execute { openWriteRaises := some "disk full" } "f" "x" true).success
      = false :=
  (C8_theorem { openWriteRaises := some "disk full" } "f" "x" true).1.2 (Or.inr rfl)

/-! ### Path validation lemmas and claims C3, C5, C9 -/

lemma validate_fst_false_of_suspicious (v : PathValidator) (e : Env) (path : String)
    (ac : Bool) (h : suspiciousPath path = true) :
    (v.validate_path e path ac).1 = false := by
  unfold PathValidator.validate_path
  by_cases h0 : (path = "" || decide (path.length > v.max_path_length)) = true
  · rw [if_pos h0]
  · rw [if_neg h0, if_pos h]

lemma validate_fst_false_of_not_exists (v : PathValidator) (e : Env) (path : String)
    (hne : e.pathExists (resolvePath e.cwd path) = false) :
    (v.validate_path e path false).1 = false := by
  unfold PathValidator.validate_path
  by_cases h0 : (path = "" || decide (path.length > v.max_path_length)) = true
  · rw [if_pos h0]
  · rw [if_neg h0]
    by_cases h1 : suspiciousPath path = true
    · rw [if_pos h1]
    · rw [if_neg h1]
      by_cases h2 : withinAllowed v e (resolvePath e.cwd path) = true
      · rw [if_pos h2, if_pos (show (!false && !(e.pathExists (resolvePath e.cwd path))) = true by simp [hne])]
      · rw [if_neg h2]

lemma validate_true_parts (v : PathValidator) (e : Env) (path : String) (ac : Bool)
    (msg : String) (rp : Option (List String))
    (h : v.validate_path e path ac = (true, msg, rp)) :
    rp = some (resolvePath e.cwd path) ∧
    withinAllowed v e (resolvePath e.cwd path) = true ∧
    (ac = false → e.pathExists (resolvePath e.cwd path) = true) := by
  unfold PathValidator.validate_path at h
  by_cases h0 : (path = "" || decide (path.length > v.max_path_length)) = true
  · rw [if_pos h0] at h
    simp at h
  · rw [if_neg h0] at h
    by_cases h1 : suspiciousPath path = true
    · rw [if_pos h1] at h
      simp at h
    · rw [if_neg h1] at h
      by_cases h2 : withinAllowed v e (resolvePath e.cwd path) = true
      · rw [if_pos h2] at h
        by_cases h3 : (!ac && !(e.pathExists (resolvePath e.cwd path))) = true
        · rw [if_pos h3] at h
          simp at h
        · rw [if_neg h3] at h
          simp only [Prod.mk.injEq] at h
          obtain ⟨-, -, hrp⟩ := h
          refine ⟨hrp.symm, h2, ?_⟩
          intro hac
          subst hac
          by_cases hex : e.pathExists (resolvePath e.cwd path) = true
          · exact hex
          · rw [Bool.not_eq_true] at hex
            exact absurd (by simp [hex]) h3
      · rw [if_neg h2] at h
        simp at h

/-- C3: whenever `PathValidator.validate_path` accepts, the resolved
path it returns lies within at least one configured allowed base
directory (for every input path, including adversarial ones, and every
`allow_creation` flag). -/
theorem C3_theorem (v : PathValidator) (e : Env) (path : String)
    (allow_creation : Bool)
    (h : (v.validate_path e path allow_creation).1 = true) :
    ∃ rp, (v.validate_path e path allow_creation).2.2 = some rp ∧
      ∃ base ∈ v.allowed_base_paths,
        (resolvePath e.cwd base).isPrefixOf rp = true := by
  rcases hval : v.validate_path e path allow_creation with ⟨ok, msg, rp⟩
  have hok : ok = true := by rw [hval] at h; exact h
  subst hok
  obtain ⟨hrp, hw, _⟩ := validate_true_parts v e path allow_creation msg rp hval
  subst hrp
  refine ⟨resolvePath e.cwd path, rfl, ?_⟩
  unfold withinAllowed at hw
  rcases List.any_eq_true.1 hw with ⟨base, hb, hpre⟩
  exact ⟨base, hb, hpre⟩

/-- C3 witness: a concrete accepted path resolving inside the allowed
base `/work`. -/
theorem C3_witness :
    ∃ rp,
      (PathValidator.validate_path { allowed_base_paths := ["/work"] }
        { cwd := ["work"], dirs := [["work"]] } "/work" false).2.2 = some rp ∧
      ∃ base ∈ ["/work"],
        (resolvePath ["work"] base).isPrefixOf rp = true :=
  C3_theorem { allowed_base_paths := ["/work"] }
    { cwd := ["work"], dirs := [["work"]] } "/work" false rfl

/-! Branch-computation lemmas for `FileReadTool.execute`. -/

lemma fileread_execute_invalid (v : PathValidator) (e : Env) (path : String)
    (h : (v.validate_path e path false).1 = false) :
    FileReadTool.execute v e (some path) =
      (ErrorHandler.create_error_result
        ("Path validation failed: " ++ (v.validate_path e path false).2.1)
        ErrorType.security [("path", PyVal.str path)], false) := by
  show FileReadTool.executeSome v e path = _
  unfold FileReadTool.executeSome
  rcases hval : v.validate_path e path false with ⟨ok, msg, rp⟩
  have hok : ok = false := by rw [hval] at h; exact h
  subst hok
  rfl

lemma errType_create_path (m : String) (et : ErrorType) (pv : PyVal) :
    (ErrorHandler.create_error_result m et [("path", pv)]).errType = some et.value :=
  rfl

lemma errType_create_nil (m : String) (et : ErrorType) :
    (ErrorHandler.create_error_result m et []).errType = some et.value :=
  rfl

lemma errType_create_sizes (m : String) (et : ErrorType) (a b : PyVal) :
    (ErrorHandler.create_error_result m et
      [("file_size", a), ("max_size", b)]).errType = some et.value :=
  rfl

lemma errType_success_meta (o : String) (a b : PyVal) :
    (ErrorHandler.create_success_result o
      [("file_size", a), ("resolved_path", b)]).errType = Option.none :=
  rfl

/-- C5: reading `../../etc/passwd` (allowed bases not covering it) fails
with `error_type` SECURITY — the suspicious-pattern scan fires before
anything else — and the file is never opened. -/
theorem C5_theorem (v : PathValidator) (e : Env)
    (_hnotcovered : v.allowed_base_paths.any
      (fun base => (resolvePath e.cwd base).isPrefixOf
        (resolvePath e.cwd "../../etc/passwd")) = false) :
    (FileReadTool.execute v e (some "../../etc/passwd")).1.success = false ∧
    (FileReadTool.execute v e (some "../../etc/passwd")).1.errType
      = some "security_error" ∧
    (FileReadTool.execute v e (some "../../etc/passwd")).2 = false := by
  have hf := validate_fst_false_of_suspicious v e "../../etc/passwd" false rfl
  rw [fileread_execute_invalid v e _ hf]
  exact ⟨rfl, errType_create_path _ ErrorType.security _, rfl⟩

/-- C5 witness: the concrete configuration of the spec scenario (allowed
base `/work`, working directory `/work`). -/
theorem C5_witness :
    (FileReadTool.execute { allowed_base_paths := ["/work"] }
      { cwd := ["work"], dirs := [["work"]] }
      (some "../../etc/passwd")).1.errType = some "security_error" :=
  (C5_theorem { allowed_base_paths := ["/work"] }
    { cwd := ["work"], dirs := [["work"]] } rfl).2.1

/-- C9: for a path that passes the suspicious-pattern scan but names a
non-existent target, `file_read` fails with `error_type` SECURITY (from
path validation) and never opens a file; no input whatsoever makes
`file_read` produce a FILE_NOT_FOUND `error_type`; and whenever
validation succeeds, the extension fallback returns the validated path
itself, so the fallback extensions are never consulted. -/
theorem C9_theorem :
    (∀ (v : PathValidator) (e : Env) (path : String),
      suspiciousPath path = false →
      e.pathExists (resolvePath e.cwd path) = false →
      (FileReadTool.execute v e (some path)).1.errType = some "security_error" ∧
      (FileReadTool.execute v e (some path)).2 = false) ∧
    (∀ (v : PathValidator) (e : Env) (path? : Option String),
      (FileReadTool.execute v e path?).1.errType ≠ some "file_not_found") ∧
    (∀ (v : PathValidator) (e : Env) (path : String) (msg : String)
        (rp : Option (List String)),
      v.validate_path e path false = (true, msg, rp) →
      FileReadTool.try_common_extensions e (resolvePath e.cwd path)
        = some (resolvePath e.cwd path)) := by
  have htce : ∀ (e : Env) (p : List String), e.pathExists p = true →
      FileReadTool.try_common_extensions e p = some p := by
    intro e p hex
    unfold FileReadTool.try_common_extensions
    rw [if_pos hex]
  refine ⟨?_, ?_, ?_⟩
  · intro v e path _ hne
    have hf := validate_fst_false_of_not_exists v e path hne
    rw [fileread_execute_invalid v e path hf]
    exact ⟨errType_create_path _ ErrorType.security _, rfl⟩
  · intro v e path?
    cases path? with
    | none =>
      intro hc
      have hv : (FileReadTool.execute v e Option.none).1.errType
          = some "validation_error" := rfl
      rw [hv] at hc
      exact absurd (Option.some.inj hc) (by decide)
    | some path =>
      show (FileReadTool.executeSome v e path).1.errType ≠ some "file_not_found"
      unfold FileReadTool.executeSome
      split
      · rw [errType_create_path _ ErrorType.security _]
        decide
      · rw [errType_create_nil _ ErrorType.internal]
        decide
      · next msg vp heq =>
        obtain ⟨hrp, _, hex⟩ := validate_true_parts v e path false _ _ heq
        have hvp : vp = resolvePath e.cwd path := Option.some.inj hrp
        unfold FileReadTool.afterValidation
        split
        · next heq2 =>
          rw [htce e vp (by rw [hvp]; exact hex rfl)] at heq2
          cases heq2
        · split
          · rw [errType_create_path _ ErrorType.validation _]
            decide
          · split
            · rw [errType_create_sizes _ ErrorType.resource _ _]
              decide
            · rw [errType_success_meta]
              decide
  · intro v e path msg rp hval
    obtain ⟨_, _, hex⟩ := validate_true_parts v e path false msg rp hval
    exact htce e _ (hex rfl)

/-- C9 witness: concrete non-existent path under the allowed base. -/
theorem C9_witness :
    (FileReadTool.execute { allowed_base_paths := ["/work"] }
      { cwd := ["work"], dirs := [["work"]] }
      (some "/work/nothing.json")).1.errType = some "security_error" :=
  (C9_theorem.1 { allowed_base_paths := ["/work"] }
    { cwd := ["work"], dirs := [["work"]] } "/work/nothing.json" rfl rfl).1

/-! ### Claim C4 -/

/-- C4 counterexample: executing `rm -rf /` under `safe_mode` is blocked
without spawning a process, but the failure result carries no metadata
at all — so no `error_type` SECURITY. -/
theorem C4_counterexample :
    (BashTool.execute bashDemoEnv "rm -rf /" "." true).1.success = false ∧
    (BashTool.execute bashDemoEnv "rm -rf /" "." true).1.metadata = Option.none ∧
    (BashTool.execute bashDemoEnv "rm -rf /" "." true).2 = false :=
  ⟨rfl, rfl, rfl⟩

/-- C4 (amended): with `safe_mode` enabled and a valid working
directory, a command the sanitizer classifies as dangerous (such as
`rm -rf /`) yields a failure whose error is the safety-block message and
whose metadata is absent, and no child process is spawned. -/
theorem C4_theorem (be : BashTool.BashEnv) (cmd working_dir msg : String)
    (wdir : List String)
    (hc : ¬(cmd = ""))
    (hval : BashTool.utils_validate_path be.v be.e working_dir true
      = (true, msg, some wdir))
    (hdir : be.e.dirs.contains wdir = true)
    (hdang : BashTool.dangerous_command cmd true = true) :
    BashTool.execute be cmd working_dir true =
      ({ success := false, output := "",
         error := some ("Command blocked for safety: " ++
           "dangerous pattern detected"),
         metadata := Option.none }, false) := by
  unfold BashTool.execute
  rw [if_neg hc]
  split
  · next heq =>
    rw [hval] at heq
    simp at heq
  · next fst wd? heq =>
    rw [hval] at heq
    simp only [Prod.mk.injEq] at heq
    obtain ⟨-, -, hwd⟩ := heq
    subst hwd
    have hmem : wdir ∈ be.e.dirs := by simpa using hdir
    rw [if_neg (by simp [hmem])]
    show (if true = true then _ else _) = _
    rw [if_pos rfl]
    unfold BashTool.sanitize_command
    rw [if_pos hdang]
    rfl

/-- C4 witness: the amended behaviour at the concrete scenario
environment. -/
theorem C4_witness :
    BashTool.execute bashDemoEnv "rm -rf /" "." true =
      ({ success := false, output := "",
         error := some ("Command blocked for safety: " ++
           "dangerous pattern detected"),
         metadata := Option.none }, false) :=
  C4_theorem bashDemoEnv "rm -rf /" "." "" ["work"]
    (by decide) rfl rfl rfl

/-! ### Claim C7 -/

/-- Reading the produced descriptor back: its checks coincide
syntactically with a check over `requiredNames` and `properties`. -/
lemma pySat_format (d : ToolDefinition) (args : List (String × PyVal)) :
    pySatisfiesDescriptor d.to_ollama_format args =
      ((d.requiredNames.map PyVal.str).all (fun r =>
         match r with
         | PyVal.str n => containsKey args n
         | _ => false) &&
       args.all (fun kv =>
         match lookupA d.properties kv.1 with
         | some (PyVal.dict pd) =>
           if kv.1 == "value" &&
               (match lookupA pd "description" with
                | some (PyVal.str ds) => containsSub "JSON-serializable" ds
                | _ => false) then true
           else
             (match lookupA pd "type" with
              | some (PyVal.str ty) => pyTypeMatch ty kv.2
              | _ => true)
         | _ => true)) := rfl

lemma all_congr_args (p q : String × PyVal → Bool) :
    ∀ m : List (String × PyVal), (∀ kv ∈ m, p kv = q kv) → m.all p = m.all q
  | [], _ => rfl
  | kv :: m, h => by
    rw [List.all_cons, List.all_cons, h kv (List.mem_cons_self kv m),
      all_congr_args p q m (fun b hb => h b (List.mem_cons_of_mem kv hb))]

lemma all_map_str (g : String → Bool) :
    ∀ l : List String, ((l.map PyVal.str).all (fun r =>
      match r with
      | PyVal.str n => g n
      | _ => false)) = l.all g
  | [] => rfl
  | a :: l => by
    rw [List.map_cons, List.all_cons, List.all_cons, all_map_str g l]

lemma required_names_all (ps : List ToolParameter) (q : String → Bool) :
    ((ps.filter (fun p => p.required)).map (fun p => p.name)).all q
      = ps.all (fun p => !p.required || q p.name) := by
  induction ps with
  | nil => rfl
  | cons p ps ih =>
    by_cases hreq : p.required = true
    · simp [List.filter_cons, hreq, ih]
    · rw [Bool.not_eq_true] at hreq
      simp [List.filter_cons, hreq, ih]

lemma foldl_insertA_of_fresh (ps : List ToolParameter) (acc : List (String × PyVal))
    (hfresh : ∀ p ∈ ps, containsKey acc p.name = false)
    (hnd : (ps.map (fun p => p.name)).Nodup) :
    ps.foldl (fun m p => insertA m p.name (paramProperty p)) acc
      = acc ++ ps.map (fun p => (p.name, paramProperty p)) := by
  induction ps generalizing acc with
  | nil => simp
  | cons p ps ih =>
    simp only [List.foldl_cons, List.map_cons]
    have hk : containsKey acc p.name = false := hfresh p (List.mem_cons_self p ps)
    have hins : insertA acc p.name (paramProperty p)
        = acc ++ [(p.name, paramProperty p)] := by
      unfold insertA
      rw [if_neg (by simp [hk])]
    rw [hins]
    rw [List.map_cons] at hnd
    have hnd' := List.nodup_cons.1 hnd
    rw [ih (acc ++ [(p.name, paramProperty p)]) ?_ hnd'.2]
    · simp
    · intro q hq
      have h1 : containsKey acc q.name = false :=
        hfresh q (List.mem_cons_of_mem p hq)
      have h2 : (p.name == q.name) = false := by
        rw [beq_eq_false_iff_ne]
        intro hqp
        exact hnd'.1 (hqp ▸ List.mem_map_of_mem (fun r => r.name) hq)
      simp only [containsKey, List.any_append] at h1 ⊢
      rw [h1]
      simp [h2]

lemma properties_eq_map (d : ToolDefinition)
    (hnd : (d.parameters.map (fun p => p.name)).Nodup) :
    d.properties = d.parameters.map (fun p => (p.name, paramProperty p)) := by
  unfold ToolDefinition.properties
  rw [foldl_insertA_of_fresh d.parameters [] (by intro p _; rfl) hnd]
  rfl

lemma lookupA_map_params (ps : List ToolParameter) (k : String) :
    lookupA (ps.map (fun p => (p.name, paramProperty p))) k
      = Option.map paramProperty (ps.find? (fun p => p.name == k)) := by
  induction ps with
  | nil => rfl
  | cons p ps ih =>
    by_cases h : (p.name == k) = true
    · simp [lookupA, List.find?, h]
    · rw [Bool.not_eq_true] at h
      simp only [lookupA, List.map_cons, List.find?] at ih ⊢
      rw [h]
      simpa using ih

lemma pyProp_body (p : ToolParameter) (k : String) (v : PyVal) :
    (match paramProperty p with
     | PyVal.dict pd =>
       if k == "value" &&
           (match lookupA pd "description" with
            | some (PyVal.str ds) => containsSub "JSON-serializable" ds
            | _ => false) then true
       else
         (match lookupA pd "type" with
          | some (PyVal.str ty) => pyTypeMatch ty v
          | _ => true)
     | _ => true) = typeCheckOk p k v := by
  by_cases hdef : p.default.isNone = true
  · simp only [paramProperty, if_pos hdef]
    rfl
  · simp only [paramProperty, if_neg hdef]
    rfl

/-- Key equality behind the round-trip: under distinct parameter names,
acceptance against the produced descriptor under Python semantics is the
very function `validate_parameters` computes. -/
lemma pySat_eq_validate (d : ToolDefinition) (args : List (String × PyVal))
    (hnd : (d.parameters.map (fun p => p.name)).Nodup) :
    pySatisfiesDescriptor d.to_ollama_format args = d.validate_parameters args := by
  rw [pySat_format]
  unfold ToolDefinition.validate_parameters
  congr 1
  · rw [all_map_str]
    unfold ToolDefinition.requiredNames
    exact required_names_all d.parameters (fun n => containsKey args n)
  · refine all_congr_args _ _ args ?_
    intro kv _
    rw [properties_eq_map d hnd, lookupA_map_params]
    show (match Option.map paramProperty (findParam d kv.1) with
          | some (PyVal.dict pd) =>
            if kv.1 == "value" &&
                (match lookupA pd "description" with
                 | some (PyVal.str ds) => containsSub "JSON-serializable" ds
                 | _ => false) then true
            else
              (match lookupA pd "type" with
               | some (PyVal.str ty) => pyTypeMatch ty kv.2
               | _ => true)
          | _ => true) = _
    cases hfp : findParam d kv.1 with
    | none => rfl
    | some p => exact pyProp_body p kv.1 kv.2

/-- C7 counterexample: for the `file_search` tool (whose `max_results`
parameter is declared `number`), the map `{pattern: "x",
max_results: true}` is accepted by `validate_parameters` — Python treats
`bool` as `int` — yet fails the JSON-Schema meaning of the very
descriptor `to_ollama_format` produces. -/
theorem C7_counterexample :
    FileSearchTool.definition.validate_parameters
      [("pattern", PyVal.str "x"), ("max_results", PyVal.bool true)] = true ∧
    satisfiesDeclaredSchema FileSearchTool.definition.to_ollama_format
      [("pattern", PyVal.str "x"), ("max_results", PyVal.bool true)] = false :=
  ⟨rfl, rfl⟩

/-- C7 (amended): every descriptor has the claimed JSON shape, and — for
tools with distinct parameter names — validation accepts exactly the
maps that satisfy the descriptor read back under Python `isinstance`
semantics (which, unlike JSON Schema, accept booleans for `number`
parameters and exempt JSON-serializable `value` parameters). -/
theorem C7_theorem (d : ToolDefinition) (args : List (String × PyVal))
    (hnd : (d.parameters.map (fun p => p.name)).Nodup) :
    d.to_ollama_format = PyVal.dict
      [("type", PyVal.str "function"),
       ("function", PyVal.dict
         [("name", PyVal.str d.name),
          ("description", PyVal.str d.description),
          ("parameters", PyVal.dict
            [("type", PyVal.str "object"),
             ("properties", PyVal.dict d.properties),
             ("required", PyVal.list (d.requiredNames.map PyVal.str))])])] ∧
    (d.validate_parameters args = true ↔
      pySatisfiesDescriptor d.to_ollama_format args = true) := by
  refine ⟨rfl, ?_⟩
  rw [pySat_eq_validate d args hnd]

/-- C7 witness: the round-trip instantiated at `file_search` with an
accepted argument map. -/
theorem C7_witness :
    pySatisfiesDescriptor FileSearchTool.definition.to_ollama_format
      [("pattern", PyVal.str "x")] = true :=
  ((C7_theorem FileSearchTool.definition [("pattern", PyVal.str "x")]
    (by decide)).2).1 rfl

/-! ### Claim C10 -/

namespace StreamPipeline

lemma findOp_eq (ops : List Operation) (hnd : wellFormed ops)
    (o : Operation) (ho : o ∈ ops) : findOp ops o.operation_id = some o := by
  induction ops with
  | nil => cases ho
  | cons a ops ih =>
    unfold wellFormed at hnd
    rw [List.map_cons, List.nodup_cons] at hnd
    unfold findOp
    simp only [List.find?]
    by_cases h : (a.operation_id == o.operation_id) = true
    · rw [h]
      rcases List.mem_cons.1 ho with rfl | hmem
      · rfl
      · exfalso
        apply hnd.1
        rw [beq_iff_eq] at h
        rw [h]
        exact List.mem_map_of_mem (fun o => o.operation_id) hmem
    · rw [Bool.not_eq_true] at h
      rw [h]
      rcases List.mem_cons.1 ho with rfl | hmem
      · rw [beq_self_eq_true] at h
        cases h
      · exact ih hnd.2 hmem

lemma isWriteId_mem (ops : List Operation) (hnd : wellFormed ops)
    (o : Operation) (ho : o ∈ ops) :
    isWriteId ops o.operation_id = (o.operation_type == OpType.write) := by
  unfold isWriteId
  rw [findOp_eq ops hnd o ho]

lemma depsOf_mem (ops : List Operation) (hnd : wellFormed ops)
    (o : Operation) (ho : o ∈ ops) :
    depsOf ops o.operation_id = o.dependencies := by
  unfold depsOf
  rw [findOp_eq ops hnd o ho]

lemma inv_init (ops : List Operation) : Inv ops {} := by
  refine ⟨by simp [writesInFlight], ?_, ?_⟩
  · intro i hi
    cases hi
  · intro k h
    cases h

lemma inv_step (ops : List Operation) (hnd : wellFormed ops)
    {s t : PState} (hstep : Step ops s t) (hinv : Inv ops s) : Inv ops t := by
  obtain ⟨hw1, hrun, hdag⟩ := hinv
  cases hstep with
  | start o hmem hnr hnc hdeps hwok =>
    refine ⟨?_, ?_, hdag⟩
    · unfold writesInFlight at hw1 ⊢
      simp only [List.filter_cons]
      by_cases hot : o.operation_type = OpType.write
      · have hfil : s.running.filter (isWriteId ops) = [] := by
          rw [List.filter_eq_nil_iff]
          intro r hr
          rw [hwok hot r hr]
          simp
        rw [hfil] at hw1 ⊢
        rw [isWriteId_mem ops hnd o hmem]
        simp [hot]
      · rw [isWriteId_mem ops hnd o hmem]
        have : (o.operation_type == OpType.write) = false := by
          rw [beq_eq_false_iff_ne]
          exact hot
        rw [this]
        exact hw1
    · intro i hi
      rcases List.mem_cons.1 hi with rfl | hi'
      · rw [depsOf_mem ops hnd o hmem]
        exact hdeps
      · exact hrun i hi'
  | finish i hmem =>
    refine ⟨?_, ?_, ?_⟩
    · unfold writesInFlight at hw1 ⊢
      exact le_trans (((s.running.erase_sublist i).filter _).length_le) hw1
    · intro j hj d hd
      exact List.mem_append_left _ (hrun j (List.mem_of_mem_erase hj) d hd)
    · intro k h d hd
      simp only [List.length_append, List.length_singleton] at h
      rcases Nat.lt_succ_iff_lt_or_eq.1 h with hk | hk
      · rw [List.getElem_append_left hk] at hd
        rw [List.take_append_of_le_length (Nat.le_of_lt hk)]
        exact hdag k hk d hd
      · subst hk
        rw [List.getElem_append_right (Nat.le_refl _)] at hd
        simp only [Nat.sub_self, List.getElem_singleton] at hd
        rw [List.take_left]
        exact hrun i hmem d hd

lemma reachable_inv (ops : List Operation) (hnd : wellFormed ops)
    (s : PState) (h : Reachable ops s) : Inv ops s := by
  induction h with
  | init => exact inv_init ops
  | step hr hstep ih => exact inv_step ops hnd hstep ih

end StreamPipeline

/-- C10: in the spec-modelled pipeline execution model, every reachable
state of a well-formed pipeline has at most one write operation in
flight and a completion order consistent with the dependency DAG. -/
theorem C10_theorem (ops : List StreamPipeline.Operation)
    (hnd : StreamPipeline.wellFormed ops) (s : StreamPipeline.PState)
    (h : StreamPipeline.Reachable ops s) :
    StreamPipeline.writesInFlight ops s ≤ 1 ∧
    StreamPipeline.respectsDag ops s.completed :=
  ⟨(StreamPipeline.reachable_inv ops hnd s h).1,
   (StreamPipeline.reachable_inv ops hnd s h).2.2⟩

/-- C10 witness: the invariant holds at the fully-completed state of the
concrete demo pipeline, reached by running read then write. -/
theorem C10_witness :
    StreamPipeline.writesInFlight pipelineDemoOps
      { running := [], completed := [1, 2] } ≤ 1 ∧
    StreamPipeline.respectsDag pipelineDemoOps [1, 2] := by
  have h1 : StreamPipeline.Step pipelineDemoOps {}
      { running := [1], completed := [] } :=
    StreamPipeline.Step.start {}
      { operation_id := 1, operation_type := StreamPipeline.OpType.read }
      (by simp [pipelineDemoOps]) (by simp) (by simp) (by simp)
      (by intro h; cases h)
  have h2 : StreamPipeline.Step pipelineDemoOps
      { running := [1], completed := [] }
      { running := [], completed := [1] } :=
    StreamPipeline.Step.finish { running := [1], completed := [] } 1 (by simp)
  have h3 : StreamPipeline.Step pipelineDemoOps
      { running := [], completed := [1] }
      { running := [2], completed := [1] } :=
    StreamPipeline.Step.start { running := [], completed := [1] }
      { operation_id := 2, operation_type := StreamPipeline.OpType.write,
        dependencies := [1] }
      (by simp [pipelineDemoOps]) (by simp) (by simp) (by simp)
      (by intro _ r hr; cases hr)
  have h4 : StreamPipeline.Step pipelineDemoOps
      { running := [2], completed := [1] }
      { running := [], completed := [1, 2] } :=
    StreamPipeline.Step.finish { running := [2], completed := [1] } 2 (by simp)
  have hreach : StreamPipeline.Reachable pipelineDemoOps
      { running := [], completed := [1, 2] } :=
    StreamPipeline.Reachable.step
      (StreamPipeline.Reachable.step
        (StreamPipeline.Reachable.step
          (StreamPipeline.Reachable.step StreamPipeline.Reachable.init h1) h2) h3) h4
  exact C10_theorem pipelineDemoOps
    (by unfold StreamPipeline.wellFormed; decide) _ hreach

end Ocode
